import Mathlib

/-!
Verification of the streaming response pipeline of `bedrock_test/main.py`.

Text is modelled as `List Char` (Python `str` codepoints).  The word
splitter `splitSp` embeds Python's `str.split(' ')` (single-space
separator: adjacent separators yield empty words, the empty string
yields one empty word).  `mkChunks` embeds the chunk-building loop
`word + (' ' if i < len(words) - 1 else '')` over `enumerate(words)`.
-/

abbrev Text := List Char

/-- Python `text.split(' ')`: split on every single occurrence of a space. -/
def splitSp : Text → List Text
  | [] => [[]]
  | c :: rest =>
    match splitSp rest with
    | [] => [[]]
    | w :: ws => if c = ' ' then [] :: w :: ws else (c :: w) :: ws

/-- The chunk loop of `websocket_endpoint` (main.py lines 296-299):
one chunk per word, a single trailing space on all but the last. -/
def mkChunks (ws : List Text) : List Text :=
  ws.enum.map fun iw => iw.2 ++ (if iw.1 < ws.length - 1 then [' '] else [])

/-- Structural recursion equivalent of `mkChunks`, used in proofs. -/
def mkChunksRec : List Text → List Text
  | [] => []
  | [w] => [w]
  | w :: ws => (w ++ [' ']) :: mkChunksRec ws

/-- Intercalation with a single space (inverse of `splitSp`). -/
def joinSp : List Text → Text
  | [] => []
  | [w] => w
  | w :: ws => w ++ ' ' :: joinSp ws

/-- Concatenation of a list of texts. -/
def joinAll : List Text → Text
  | [] => []
  | w :: ws => w ++ joinAll ws

theorem splitSp_ne_nil (t : Text) : splitSp t ≠ [] := by
  cases t with
  | nil => simp [splitSp]
  | cons c rest =>
    simp only [splitSp]
    cases splitSp rest with
    | nil => simp
    | cons w ws =>
      by_cases hc : c = ' ' <;> simp [hc]

theorem mkChunks_aux (ws : List Text) (k n : Nat) (h : k + ws.length = n + 1) :
    (ws.enumFrom k).map (fun iw => iw.2 ++ (if iw.1 < n then [' '] else []))
      = mkChunksRec ws := by
  induction ws generalizing k with
  | nil => simp [List.enumFrom, mkChunksRec]
  | cons w t ih =>
    cases t with
    | nil =>
      have hk : k = n := by
        simp at h
        omega
      simp [List.enumFrom, mkChunksRec, hk]
    | cons b t2 =>
      have hk : k < n := by
        simp at h
        omega
      have ih2 := ih (k + 1) (by simp at h ⊢; omega)
      simp only [List.enumFrom, List.map_cons, hk, if_pos] at *
      rw [ih2]
      simp [mkChunksRec]

theorem mkChunks_eq_rec (ws : List Text) : mkChunks ws = mkChunksRec ws := by
  cases ws with
  | nil => rfl
  | cons w t =>
    have : (w :: t).enum = (w :: t).enumFrom 0 := rfl
    rw [mkChunks, this]
    exact mkChunks_aux (w :: t) 0 t.length (by simp)

theorem joinAll_mkChunksRec (ws : List Text) : joinAll (mkChunksRec ws) = joinSp ws := by
  induction ws with
  | nil => rfl
  | cons w t ih =>
    cases t with
    | nil => simp [mkChunksRec, joinAll, joinSp]
    | cons b t2 =>
      simp only [mkChunksRec, joinAll, joinSp]
      rw [ih]
      simp [joinSp]

theorem joinSp_splitSp (t : Text) : joinSp (splitSp t) = t := by
  induction t with
  | nil => rfl
  | cons c rest ih =>
    cases hsr : splitSp rest with
    | nil => exact absurd hsr (splitSp_ne_nil rest)
    | cons w ws =>
      rw [hsr] at ih
      by_cases hc : c = ' '
      · subst hc
        simp only [splitSp, hsr]
        simp only [if_pos]
        cases ws with
        | nil => simp [joinSp] at ih ⊢; simp [ih]
        | cons b t2 => simp [joinSp] at ih ⊢; simp [ih]
      · simp only [splitSp, hsr, if_neg hc]
        cases ws with
        | nil => simp [joinSp] at ih ⊢; simp [ih]
        | cons b t2 =>
          simp [joinSp] at ih ⊢
          simp [ih]

/-- Round trip: concatenating the chunks of a text restores the text. -/
theorem joinAll_chunks (t : Text) : joinAll (mkChunks (splitSp t)) = t := by
  rw [mkChunks_eq_rec, joinAll_mkChunksRec, joinSp_splitSp]

theorem splitSp_no_space (t : Text) : ∀ w ∈ splitSp t, ' ' ∉ w := by
  induction t with
  | nil => simp [splitSp]
  | cons c rest ih =>
    cases hsr : splitSp rest with
    | nil => exact absurd hsr (splitSp_ne_nil rest)
    | cons w ws =>
      rw [hsr] at ih
      by_cases hc : c = ' '
      · subst hc
        simp only [splitSp, hsr, if_pos]
        intro u hu
        rcases List.mem_cons.mp hu with h1 | h2
        · subst h1; simp
        · exact ih u h2
      · simp only [splitSp, hsr, if_neg hc]
        intro u hu
        rcases List.mem_cons.mp hu with h1 | h2
        · subst h1
          intro hmem
          rcases List.mem_cons.mp hmem with h3 | h4
          · exact hc h3.symm
          · exact ih w (List.mem_cons_self w ws) h4
        · exact ih u (List.mem_cons_of_mem w h2)

theorem splitSp_of_no_space (t : Text) (h : ' ' ∉ t) : splitSp t = [t] := by
  induction t with
  | nil => rfl
  | cons c rest ih =>
    have hc : c ≠ ' ' := fun hcc => h (hcc ▸ List.mem_cons_self c rest)
    have hrest : ' ' ∉ rest := fun hm => h (List.mem_cons_of_mem c hm)
    simp only [splitSp, ih hrest]
    simp [fun hcc : c = ' ' => hc hcc]

theorem mkChunksRec_append_last (init : List Text) (w : Text) :
    mkChunksRec (init ++ [w]) = init.map (· ++ [' ']) ++ [w] := by
  induction init with
  | nil => rfl
  | cons a t ih =>
    cases t with
    | nil => simp [mkChunksRec]
    | cons b t2 =>
      have hstep : mkChunksRec (a :: b :: (t2 ++ [w]))
          = (a ++ [' ']) :: mkChunksRec (b :: (t2 ++ [w])) := rfl
      simp only [List.cons_append] at ih
      simp only [List.cons_append, hstep, ih, List.map_cons]

/-!
Data model of the streaming session handler and the HTTP invoke endpoint.

The agent registry of `AgnoAISystem` has the keys "research", "analyze",
"general"; `agent_type == "team"` selects `system.team`.  An agent call
either returns a response object (possibly falsy, modelled as `none`) or
raises with a message; this is the `RunOutcome` of a runner function,
which abstracts `agent.run`.
-/

/-- Outbound websocket event, the JSON payloads sent by `websocket_endpoint`. -/
inductive Event where
  | thinking (content : Text)
  | chunk (content : Text)
  | done
  | error (content : Text)
deriving DecidableEq

/-- Inbound websocket message as read by `websocket.receive_json()`:
absent JSON keys are `none`. -/
structure InMsg where
  agent_type : Option Text
  query : Option Text
  session_id : Option Text
  attached_file : Option Text

/-- Python truthiness test `not x` for an optional string: true when the
key is absent or the string is empty. -/
def falsy : Option Text → Bool
  | none => true
  | some t => t.isEmpty

/-- Result of `agent.run`: either a response object (whose `content` we
record; a falsy response is `returns none`) or a raised exception message. -/
inductive RunOutcome where
  | returns (response : Option Text)
  | raises (msg : Text)
deriving DecidableEq

/-- Resolved agent: the team composite or a registry entry. -/
inductive AgentSel where
  | team
  | agent (key : Text)
deriving DecidableEq

/-- Keys of `system.agents`. -/
def agentKeys : List Text := ["research".data, "analyze".data, "general".data]

/-- Agent resolution shared by both endpoints (main.py lines 205-210 and
271-278): "team" gives the team, a registry key gives that agent,
anything else fails. -/
def selectAgent (atype : Text) : Option AgentSel :=
  if atype = "team".data then some AgentSel.team
  else if atype ∈ agentKeys then some (AgentSel.agent atype)
  else none

/-- Outcome of reading the attached artifact file: the existence check
fails, or the read raises, or the content is returned. -/
inductive FileRead where
  | absent
  | failure (msg : Text)
  | content (c : Text)
deriving DecidableEq

/-- Context augmentation (main.py lines 260-268).  A truthy
`attached_file` whose file exists has its content appended inside the
marker block; if the read raises, an inline note is appended; if the
file does not exist, the query is left unchanged. -/
def augmentQuery (store : Text → FileRead) (query : Text)
    (attached_file : Option Text) : Text :=
  match attached_file with
  | none => query
  | some fname =>
    if fname.isEmpty then query
    else
      match store fname with
      | FileRead.absent => query
      | FileRead.content c =>
          query ++ "\n\n--- Attached File: ".data ++ fname ++ " ---\n".data
            ++ c ++ "\n--- End of File ---".data
      | FileRead.failure m =>
          query ++ "\n\n[Note: Could not read file ".data ++ fname
            ++ ": ".data ++ m ++ "]".data

/-- The inner `run_agent` closure (main.py lines 285-290): exceptions
become "Error: <message>", a falsy response becomes
"No response generated", otherwise the response content is used. -/
def run_agent_inner : RunOutcome → Text
  | RunOutcome.returns (some c) => c
  | RunOutcome.returns none => "No response generated".data
  | RunOutcome.raises m => "Error: ".data ++ m

/-- Result of the HTTP endpoint `POST /run/agent_type`: a JSON body
with the content, or an HTTPException with status and detail. -/
inductive HttpResult where
  | ok (content : Text)
  | httpError (status : Nat) (detail : Text)
deriving DecidableEq

/-- The HTTP invoke endpoint `run_agent` (main.py lines 203-216).
`runner` abstracts `agent.run(request.query)`; a falsy response makes
`response.content` raise an AttributeError, caught by the handler. -/
def run_agent (runner : AgentSel → Text → RunOutcome)
    (agent_type query : Text) : HttpResult :=
  match selectAgent agent_type with
  | none => HttpResult.httpError 404 "Agent not found".data
  | some agent =>
    match runner agent query with
    | RunOutcome.raises m => HttpResult.httpError 500 m
    | RunOutcome.returns none =>
        HttpResult.httpError 500 "'NoneType' object has no attribute 'content'".data
    | RunOutcome.returns (some c) => HttpResult.ok c

/-- Status text of the `thinking` event. -/
def thinkingText : Text := "Processing your request...".data

/-- Error text for failed field validation. -/
def missingText : Text := "Missing agent_type or query".data

/-- Error text for an unrecognized `agent_type`. -/
def invalidText : Text := "Invalid agent_type".data

/-- The websocket handler `websocket_endpoint` (main.py lines 244-314),
modelled as the sequence of events it sends on one session in which the
client stays connected and every send succeeds.  `store` abstracts the
artifact directory, `runner` abstracts `agent.run(query, user_id=...,
stream=False)` executed on the worker pool. -/
def websocket_endpoint (store : Text → FileRead)
    (runner : AgentSel → Text → Text → RunOutcome)
    (msg : InMsg) : List Event :=
  if falsy msg.agent_type || falsy msg.query then
    [Event.error missingText]
  else
    let query := augmentQuery store (msg.query.getD []) msg.attached_file
    match selectAgent (msg.agent_type.getD []) with
    | none => [Event.error invalidText]
    | some agent =>
      let session_id := msg.session_id.getD "default".data
      let response_text := run_agent_inner (runner agent query session_id)
      Event.thinking thinkingText ::
        ((mkChunks (splitSp response_text)).map Event.chunk ++ [Event.done])

/-- Payload of a `chunk` event, `none` for other events. -/
def chunkPayload : Event → Option Text
  | Event.chunk c => some c
  | _ => none

/-- Concatenation of the payloads of all `chunk` events of a trace, in
emission order. -/
def chunkConcat (es : List Event) : Text :=
  joinAll (es.filterMap chunkPayload)

/-- Number of `chunk` events in a trace. -/
def numChunks (es : List Event) : Nat :=
  (es.filterMap chunkPayload).length

theorem filterMap_chunks_done (cs : List Text) :
    (cs.map Event.chunk ++ [Event.done]).filterMap chunkPayload = cs := by
  induction cs with
  | nil => rfl
  | cons c t ih =>
    rw [List.map_cons, List.cons_append, List.filterMap_cons]
    simp only [chunkPayload]
    rw [ih]

theorem filterMap_trace (m : Text) (cs : List Text) :
    (Event.thinking m :: (cs.map Event.chunk ++ [Event.done])).filterMap chunkPayload
      = cs := by
  rw [List.filterMap_cons]
  simp only [chunkPayload]
  exact filterMap_chunks_done cs

theorem chunkConcat_normal (m : Text) (cs : List Text) :
    chunkConcat (Event.thinking m :: (cs.map Event.chunk ++ [Event.done]))
      = joinAll cs := by
  rw [chunkConcat, filterMap_trace]

theorem numChunks_normal (m : Text) (cs : List Text) :
    numChunks (Event.thinking m :: (cs.map Event.chunk ++ [Event.done]))
      = cs.length := by
  rw [numChunks, filterMap_trace]

theorem mkChunksRec_length (ws : List Text) : (mkChunksRec ws).length = ws.length := by
  induction ws with
  | nil => rfl
  | cons w t ih =>
    cases t with
    | nil => rfl
    | cons b t2 => simpa [mkChunksRec] using ih

/-- Normal form of a session that passes validation and agent resolution:
one `thinking`, the chunks of the dispatched result, one `done`. -/
theorem ws_valid_trace (store : Text → FileRead)
    (runner : AgentSel → Text → Text → RunOutcome) (msg : InMsg)
    (agent : AgentSel)
    (ha : falsy msg.agent_type = false) (hq : falsy msg.query = false)
    (hsel : selectAgent (msg.agent_type.getD []) = some agent) :
    websocket_endpoint store runner msg =
      Event.thinking thinkingText ::
        ((mkChunks (splitSp (run_agent_inner (runner agent
            (augmentQuery store (msg.query.getD []) msg.attached_file)
            (msg.session_id.getD "default".data))))).map Event.chunk
          ++ [Event.done]) := by
  simp [websocket_endpoint, ha, hq, hsel]

/-- Artifact store in which no file exists. -/
def storeEmpty : Text → FileRead := fun _ => FileRead.absent

/-- Stub runner echoing the query it was given as the response content. -/
def runnerEcho : AgentSel → Text → Text → RunOutcome :=
  fun _ q _ => RunOutcome.returns (some q)

/-- Stub runner that raises with message "boom". -/
def runnerBoom : AgentSel → Text → Text → RunOutcome :=
  fun _ _ _ => RunOutcome.raises "boom".data

/-- Stub runner whose response is falsy. -/
def runnerFalsy : AgentSel → Text → Text → RunOutcome :=
  fun _ _ _ => RunOutcome.returns none

/-- Stub runner returning the empty string as content. -/
def runnerEmpty : AgentSel → Text → Text → RunOutcome :=
  fun _ _ _ => RunOutcome.returns (some [])

/-- HTTP stub runner echoing the query. -/
def httpEcho : AgentSel → Text → RunOutcome :=
  fun _ q => RunOutcome.returns (some q)

/-- HTTP stub runner that raises with message "boom". -/
def httpBoom : AgentSel → Text → RunOutcome :=
  fun _ _ => RunOutcome.raises "boom".data

/-- Message selecting the general agent with a two-word query. -/
def msgHello : InMsg := ⟨some "general".data, some "hello world".data, none, none⟩

/-- Message selecting the general agent with a one-word query. -/
def msgHi : InMsg := ⟨some "general".data, some "hi".data, none, none⟩

/-- Message attaching a file that does not exist in the store. -/
def msgGhost : InMsg :=
  ⟨some "general".data, some "hi".data, none, some "ghost.txt".data⟩

/-- Message with no query field. -/
def msgNoQuery : InMsg := ⟨some "general".data, none, none, none⟩

/-- Message with an unknown agent_type and a valid query. -/
def msgBogus : InMsg := ⟨some "bogus".data, some "x".data, none, none⟩

/-- Message with an unknown agent_type and no query field. -/
def msgBogusNoQuery : InMsg := ⟨some "bogus".data, none, none, none⟩

/-- C1: for every result text returned by the agent dispatch step,
concatenating the payloads of all chunk events emitted by the streaming
session handler, in emission order, reproduces that result text exactly. -/
theorem chunks_reproduce_result (store : Text → FileRead)
    (runner : AgentSel → Text → Text → RunOutcome) (msg : InMsg)
    (agent : AgentSel)
    (ha : falsy msg.agent_type = false) (hq : falsy msg.query = false)
    (hsel : selectAgent (msg.agent_type.getD []) = some agent) :
    chunkConcat (websocket_endpoint store runner msg)
      = run_agent_inner (runner agent
          (augmentQuery store (msg.query.getD []) msg.attached_file)
          (msg.session_id.getD "default".data)) := by
  rw [ws_valid_trace store runner msg agent ha hq hsel, chunkConcat_normal,
    joinAll_chunks]

theorem chunks_reproduce_result_witness :
    chunkConcat (websocket_endpoint storeEmpty runnerEcho msgHello)
      = "hello world".data := by
  have h := chunks_reproduce_result storeEmpty runnerEcho msgHello
    (AgentSel.agent "general".data) rfl rfl (by decide)
  exact h.trans (by decide)

/-- C2: every session trace is either a single terminal `error`, or
`thinking` followed by zero or more `chunk` events followed by a single
terminal `done`; hence `thinking` occurs at most once and before any
chunk, exactly one terminal event (`done` or `error`) is emitted,
nothing follows it, and `done` and `error` are mutually exclusive. -/
theorem event_sequence_shape (store : Text → FileRead)
    (runner : AgentSel → Text → Text → RunOutcome) (msg : InMsg) :
    (∃ m, websocket_endpoint store runner msg = [Event.error m])
    ∨ (∃ cs : List Text, websocket_endpoint store runner msg
        = Event.thinking thinkingText :: (cs.map Event.chunk ++ [Event.done])) := by
  cases hv : (falsy msg.agent_type || falsy msg.query) with
  | true => exact Or.inl ⟨missingText, by simp [websocket_endpoint, hv]⟩
  | false =>
    have ha : falsy msg.agent_type = false := by
      cases h2 : falsy msg.agent_type
      · rfl
      · rw [h2] at hv; simp at hv
    have hq : falsy msg.query = false := by
      cases h2 : falsy msg.query
      · rfl
      · rw [h2] at hv; simp at hv
    cases hsel : selectAgent (msg.agent_type.getD []) with
    | none => exact Or.inl ⟨invalidText, by simp [websocket_endpoint, ha, hq, hsel]⟩
    | some a =>
      exact Or.inr ⟨_, ws_valid_trace store runner msg a ha hq hsel⟩

/-- C3 counterexample: for the message attaching the nonexistent file
"ghost.txt", the session proceeds normally but the query handed to the
agent is the original "hi", which does not contain the inline
read-failure note the claim requires. -/
theorem absent_file_no_note_cex :
    websocket_endpoint storeEmpty runnerEcho msgGhost
      = [Event.thinking thinkingText, Event.chunk "hi".data, Event.done]
    ∧ augmentQuery storeEmpty (msgGhost.query.getD []) msgGhost.attached_file
        = "hi".data
    ∧ ¬ ("[Note: Could not read file ".data <:+:
          augmentQuery storeEmpty (msgGhost.query.getD []) msgGhost.attached_file) :=
  ⟨by decide, by decide, by decide⟩

/-- C3 (amended): an `attached_file` naming a file absent from the
Artifact Store does not abort the session, and the query passed to the
agent is the original query unchanged (no note is appended; the inline
note exists only when the file exists but reading it raises). -/
theorem absent_file_degrades (store : Text → FileRead)
    (runner : AgentSel → Text → Text → RunOutcome) (msg : InMsg)
    (f : Text) (agent : AgentSel)
    (ha : falsy msg.agent_type = false) (hq : falsy msg.query = false)
    (hf : msg.attached_file = some f) (habs : store f = FileRead.absent)
    (hsel : selectAgent (msg.agent_type.getD []) = some agent) :
    websocket_endpoint store runner msg =
      Event.thinking thinkingText ::
        ((mkChunks (splitSp (run_agent_inner (runner agent (msg.query.getD [])
            (msg.session_id.getD "default".data))))).map Event.chunk
          ++ [Event.done]) := by
  have haug : augmentQuery store (msg.query.getD []) msg.attached_file
      = msg.query.getD [] := by
    rw [hf]
    by_cases hfe : f.isEmpty <;> simp [augmentQuery, hfe, habs]
  rw [ws_valid_trace store runner msg agent ha hq hsel, haug]

theorem absent_file_degrades_witness :
    websocket_endpoint storeEmpty runnerEcho msgGhost
      = [Event.thinking thinkingText, Event.chunk "hi".data, Event.done] := by
  have h := absent_file_degrades storeEmpty runnerEcho msgGhost "ghost.txt".data
    (AgentSel.agent "general".data) rfl rfl rfl rfl (by decide)
  exact h.trans (by decide)

/-- C4 counterexample: with a stub agent raising "boom", the first chunk
is "Error: " with a trailing space, so the emitted trace differs from
the claimed one whose first chunk is "Error:" without the space. -/
theorem boom_trailing_space_cex :
    websocket_endpoint storeEmpty runnerBoom msgHi
      = [Event.thinking thinkingText, Event.chunk "Error: ".data,
         Event.chunk "boom".data, Event.done]
    ∧ websocket_endpoint storeEmpty runnerBoom msgHi
      ≠ [Event.thinking thinkingText, Event.chunk "Error:".data,
         Event.chunk "boom".data, Event.done] :=
  ⟨by decide, by decide⟩

/-- C4 (amended): an exception with message "boom" raised by the agent
is caught at the dispatch boundary, converted to the result text
"Error: boom" and streamed as ordinary chunks: the session emits exactly
the events thinking, chunk "Error: " (trailing space included),
chunk "boom", done, and no `error` event. -/
theorem boom_streams_error_chunks (store : Text → FileRead)
    (runner : AgentSel → Text → Text → RunOutcome) (msg : InMsg)
    (agent : AgentSel)
    (ha : falsy msg.agent_type = false) (hq : falsy msg.query = false)
    (hsel : selectAgent (msg.agent_type.getD []) = some agent)
    (hrun : runner agent (augmentQuery store (msg.query.getD []) msg.attached_file)
        (msg.session_id.getD "default".data) = RunOutcome.raises "boom".data) :
    websocket_endpoint store runner msg
      = [Event.thinking thinkingText, Event.chunk "Error: ".data,
         Event.chunk "boom".data, Event.done] := by
  rw [ws_valid_trace store runner msg agent ha hq hsel, hrun]
  decide

theorem boom_streams_error_chunks_witness :
    websocket_endpoint storeEmpty runnerBoom msgHi
      = [Event.thinking thinkingText, Event.chunk "Error: ".data,
         Event.chunk "boom".data, Event.done] :=
  boom_streams_error_chunks storeEmpty runnerBoom msgHi
    (AgentSel.agent "general".data) rfl rfl (by decide) rfl

/-- C5: a message whose agent_type is absent, or whose query is absent
or the empty string, yields the single terminal event
error "Missing agent_type or query"; the conclusion holds for every
runner, so the agent dispatch is never reached. -/
theorem missing_fields_error (store : Text → FileRead)
    (runner : AgentSel → Text → Text → RunOutcome) (msg : InMsg)
    (h : msg.agent_type = none ∨ msg.query = none ∨ msg.query = some []) :
    websocket_endpoint store runner msg = [Event.error missingText] := by
  have hv : (falsy msg.agent_type || falsy msg.query) = true := by
    rcases h with h | h | h <;> rw [h] <;> simp [falsy]
  simp [websocket_endpoint, hv]

theorem missing_fields_error_witness :
    websocket_endpoint storeEmpty runnerEcho msgNoQuery
      = [Event.error missingText] :=
  missing_fields_error storeEmpty runnerEcho msgNoQuery (Or.inr (Or.inl rfl))

/-- C6 counterexample: the message with agent_type "bogus" (neither
"team" nor a registry key, as the third conjunct records) and a missing
query does not produce error "Invalid agent_type": field validation
fires first and produces error "Missing agent_type or query". -/
theorem invalid_type_cex :
    websocket_endpoint storeEmpty runnerEcho msgBogusNoQuery
      = [Event.error missingText]
    ∧ websocket_endpoint storeEmpty runnerEcho msgBogusNoQuery
      ≠ [Event.error invalidText]
    ∧ selectAgent (msgBogusNoQuery.agent_type.getD []) = none :=
  ⟨by decide, by decide, by decide⟩

/-- C6 (amended): for every message that passes field validation (both
agent_type and query present and non-empty) and whose agent_type is
neither "team" nor a registry key, the handler emits the single event
error "Invalid agent_type" (so no thinking and no chunks), for every
runner; moreover "team" resolves to the team and each registry key
resolves to the matching single agent. -/
theorem invalid_agent_type_spec :
    (∀ (store : Text → FileRead) (runner : AgentSel → Text → Text → RunOutcome)
        (msg : InMsg), falsy msg.agent_type = false → falsy msg.query = false →
      selectAgent (msg.agent_type.getD []) = none →
      websocket_endpoint store runner msg = [Event.error invalidText])
    ∧ selectAgent "team".data = some AgentSel.team
    ∧ ∀ k ∈ agentKeys, selectAgent k = some (AgentSel.agent k) := by
  refine ⟨?_, by decide, ?_⟩
  · intro store runner msg ha hq hsel
    simp [websocket_endpoint, ha, hq, hsel]
  · intro k hk
    simp only [agentKeys, List.mem_cons, List.not_mem_nil, or_false] at hk
    rcases hk with h | h | h <;> subst h <;> decide

theorem invalid_agent_type_spec_witness :
    websocket_endpoint storeEmpty runnerEcho msgBogus = [Event.error invalidText]
    ∧ selectAgent "research".data = some (AgentSel.agent "research".data) :=
  ⟨invalid_agent_type_spec.1 storeEmpty runnerEcho msgBogus rfl rfl (by decide),
   invalid_agent_type_spec.2.2 "research".data (by decide)⟩

/-- C7: the segmentation step splits the result text on single-space
boundaries into words in original order and emits one chunk per word:
writing the word list as init ++ last word, the chunk list is exactly
the words of init each with a single trailing space appended, followed
by the last word unchanged; words themselves contain no space (so the
trailing space is exactly one and the last chunk has none), and a text
without spaces produces exactly one chunk equal to the text. -/
theorem chunking_segmentation (r : Text) :
    (∀ init w, splitSp r = init ++ [w] →
      mkChunks (splitSp r) = init.map (· ++ [' ']) ++ [w])
    ∧ (∀ w ∈ splitSp r, ' ' ∉ w)
    ∧ (' ' ∉ r → mkChunks (splitSp r) = [r]) := by
  refine ⟨?_, splitSp_no_space r, ?_⟩
  · intro init w h
    rw [h, mkChunks_eq_rec, mkChunksRec_append_last]
  · intro h
    rw [splitSp_of_no_space r h, mkChunks_eq_rec]
    rfl

theorem chunking_segmentation_witness :
    mkChunks (splitSp "a b".data) = ["a ".data, "b".data]
    ∧ mkChunks (splitSp "ab".data) = ["ab".data] := by
  constructor
  · have h := (chunking_segmentation "a b".data).1 ["a".data] "b".data (by decide)
    exact h.trans (by decide)
  · exact (chunking_segmentation "ab".data).2.2 (by decide)

/-- C8: the request/response invoke endpoint returns a 404 failure and
never invokes the agent when the identifier is neither "team" nor a
registry key (the conclusion holds for every runner); returns a 500
failure carrying the exception message when the agent's run raises; and
returns the agent's full text result as the response content otherwise. -/
theorem run_agent_endpoint_spec (runner : AgentSel → Text → RunOutcome)
    (atype q : Text) :
    (selectAgent atype = none →
      ∀ r2 : AgentSel → Text → RunOutcome,
        run_agent r2 atype q = HttpResult.httpError 404 "Agent not found".data)
    ∧ (∀ a m, selectAgent atype = some a → runner a q = RunOutcome.raises m →
        run_agent runner atype q = HttpResult.httpError 500 m)
    ∧ (∀ a c, selectAgent atype = some a →
        runner a q = RunOutcome.returns (some c) →
        run_agent runner atype q = HttpResult.ok c) := by
  refine ⟨?_, ?_, ?_⟩
  · intro hsel r2
    simp [run_agent, hsel]
  · intro a m hsel hrun
    simp [run_agent, hsel, hrun]
  · intro a c hsel hrun
    simp [run_agent, hsel, hrun]

theorem run_agent_endpoint_spec_witness :
    run_agent httpEcho "bogus".data "q".data
      = HttpResult.httpError 404 "Agent not found".data
    ∧ run_agent httpBoom "team".data "q".data
      = HttpResult.httpError 500 "boom".data
    ∧ run_agent httpEcho "team".data "q".data = HttpResult.ok "q".data :=
  ⟨(run_agent_endpoint_spec httpEcho "bogus".data "q".data).1 (by decide) httpEcho,
   (run_agent_endpoint_spec httpBoom "team".data "q".data).2.1
     AgentSel.team "boom".data (by decide) rfl,
   (run_agent_endpoint_spec httpEcho "team".data "q".data).2.2
     AgentSel.team "q".data (by decide) rfl⟩

/-- C9: when the agent's run completes without raising but returns a
falsy response, the streamed text is the literal
"No response generated" and the session ends with `done`: the trace is
exactly thinking, chunk "No ", chunk "response ", chunk "generated",
done, and the chunk payloads concatenate to the literal. -/
theorem falsy_response_default_text (store : Text → FileRead)
    (runner : AgentSel → Text → Text → RunOutcome) (msg : InMsg)
    (agent : AgentSel)
    (ha : falsy msg.agent_type = false) (hq : falsy msg.query = false)
    (hsel : selectAgent (msg.agent_type.getD []) = some agent)
    (hrun : runner agent (augmentQuery store (msg.query.getD []) msg.attached_file)
        (msg.session_id.getD "default".data) = RunOutcome.returns none) :
    websocket_endpoint store runner msg
      = [Event.thinking thinkingText, Event.chunk "No ".data,
         Event.chunk "response ".data, Event.chunk "generated".data, Event.done]
    ∧ chunkConcat (websocket_endpoint store runner msg)
        = "No response generated".data := by
  have h := ws_valid_trace store runner msg agent ha hq hsel
  rw [hrun] at h
  refine ⟨h.trans (by decide), ?_⟩
  rw [h, chunkConcat_normal, joinAll_chunks]
  decide

theorem falsy_response_default_text_witness :
    websocket_endpoint storeEmpty runnerFalsy msgHi
      = [Event.thinking thinkingText, Event.chunk "No ".data,
         Event.chunk "response ".data, Event.chunk "generated".data, Event.done] :=
  (falsy_response_default_text storeEmpty runnerFalsy msgHi
    (AgentSel.agent "general".data) rfl rfl (by decide) rfl).1

/-- C10: every dispatch that reaches streaming emits at least one chunk
event; in particular when the result text is the empty string, splitting
yields the single empty word and the trace is exactly thinking, one
chunk with empty content, done. -/
theorem at_least_one_chunk (store : Text → FileRead)
    (runner : AgentSel → Text → Text → RunOutcome) (msg : InMsg)
    (agent : AgentSel)
    (ha : falsy msg.agent_type = false) (hq : falsy msg.query = false)
    (hsel : selectAgent (msg.agent_type.getD []) = some agent) :
    1 ≤ numChunks (websocket_endpoint store runner msg)
    ∧ (run_agent_inner (runner agent
          (augmentQuery store (msg.query.getD []) msg.attached_file)
          (msg.session_id.getD "default".data)) = [] →
        websocket_endpoint store runner msg
          = [Event.thinking thinkingText, Event.chunk [], Event.done]) := by
  have h := ws_valid_trace store runner msg agent ha hq hsel
  constructor
  · rw [h, numChunks_normal, mkChunks_eq_rec, mkChunksRec_length]
    have hne := splitSp_ne_nil (run_agent_inner (runner agent
      (augmentQuery store (msg.query.getD []) msg.attached_file)
      (msg.session_id.getD "default".data)))
    have hpos := List.length_pos.mpr hne
    omega
  · intro hempty
    rw [hempty] at h
    exact h.trans (by decide)

theorem at_least_one_chunk_witness :
    1 ≤ numChunks (websocket_endpoint storeEmpty runnerEmpty msgHi)
    ∧ websocket_endpoint storeEmpty runnerEmpty msgHi
        = [Event.thinking thinkingText, Event.chunk [], Event.done] := by
  have h := at_least_one_chunk storeEmpty runnerEmpty msgHi
    (AgentSel.agent "general".data) rfl rfl (by decide)
  exact ⟨h.1, h.2 rfl⟩
